import Mathlib

/-!
Verification of the Minecraft adapter core of the nekro-agent repository:
the inbound message normalizer (adapters/minecraft/matchers/message.py) and
the Minecraft utils plugin (plugins/builtin/minecraft_utils.py), which holds
the rich-text composer and the RCON command batch executor.

The Python code is shallowly embedded: strings are Lean strings with
list-of-character implementations of the Python primitives str.strip,
str.startswith, str.lower and str.join; 32-bit machine arithmetic of the
SHA-1 hash is Nat arithmetic reduced modulo 2 to the 32; the transport
collaborator (the nonebot Bot) is a parameter giving, per round trip, either
a response string or a raised exception; raised ValueError and
ConnectionError are Except errors.
-/

set_option maxRecDepth 100000

/-! ## Python string primitives -/

/-- Characters stripped by Python str.strip with no arguments (ASCII whitespace). -/
def pyWs (c : Char) : Bool :=
  c == ' ' || c == '\t' || c == '\n' || c == '\r' || c == '\x0b' || c == '\x0c'

/-- Embedding of Python str.strip(): drop whitespace from both ends. -/
def pyStrip (s : String) : String :=
  ⟨((s.data.dropWhile pyWs).reverse.dropWhile pyWs).reverse⟩

/-- Bool test that the first list is an initial segment of the second. -/
def startsWithChars : List Char → List Char → Bool
  | [], _ => true
  | _ :: _, [] => false
  | a :: as, b :: bs => a == b && startsWithChars as bs

/-- Embedding of Python s.startswith(p). -/
def pyStartsWith (s p : String) : Bool := startsWithChars p.data s.data

/-- Embedding of Python "\n".join(l). -/
def joinNL : List String → String
  | [] => ""
  | [x] => x
  | x :: y :: xs => x ++ "\n" ++ joinNL (y :: xs)

/-- Embedding of Python "".join(l). -/
def concatAll : List String → String
  | [] => ""
  | x :: xs => x ++ concatAll xs

/-- ASCII lower-casing of one character. -/
def lowerChar (c : Char) : Char :=
  if 65 ≤ c.toNat ∧ c.toNat ≤ 90 then Char.ofNat (c.toNat + 32) else c

/-- Embedding of Python str.lower() (the palette names are ASCII). -/
def pyLower (s : String) : String := ⟨s.data.map lowerChar⟩

/-! ## SHA-1 over byte lists (bytes are Nat < 256, words are Nat < 2^32) -/

/-- Left rotation of a 32-bit word by k bits. -/
def rotl (k n : Nat) : Nat := ((n <<< k) % 4294967296) ||| (n >>> (32 - k))

/-- UTF-8 encoding of one character as its byte list. -/
def utf8EncodeChar (c : Char) : List Nat :=
  let n := c.toNat
  if n < 128 then [n]
  else if n < 2048 then [192 ||| (n >>> 6), 128 ||| (n &&& 63)]
  else if n < 65536 then
    [224 ||| (n >>> 12), 128 ||| ((n >>> 6) &&& 63), 128 ||| (n &&& 63)]
  else
    [240 ||| (n >>> 18), 128 ||| ((n >>> 12) &&& 63), 128 ||| ((n >>> 6) &&& 63), 128 ||| (n &&& 63)]

/-- Embedding of Python s.encode("utf-8"). -/
def utf8Encode (s : String) : List Nat := (s.data.map utf8EncodeChar).flatten

/-- Big-endian 8-byte encoding of a length in bits. -/
def bigEndian8 (n : Nat) : List Nat :=
  [(n >>> 56) % 256, (n >>> 48) % 256, (n >>> 40) % 256, (n >>> 32) % 256,
   (n >>> 24) % 256, (n >>> 16) % 256, (n >>> 8) % 256, n % 256]

/-- SHA-1 padding: 0x80, zeros to 56 mod 64, then the bit length. -/
def sha1Pad (msg : List Nat) : List Nat :=
  msg ++ [128] ++ List.replicate ((119 - msg.length % 64) % 64) 0 ++ bigEndian8 (msg.length * 8)

/-- Group bytes four at a time into big-endian 32-bit words. -/
def bytesToWords : List Nat → List Nat
  | a :: b :: c :: d :: rest => (((a * 256 + b) * 256 + c) * 256 + d) :: bytesToWords rest
  | _ => []

/-- Extend the 16-word schedule to 80 words (fuel counts the words to add). -/
def scheduleExtend : Nat → List Nat → List Nat
  | 0, w => w
  | fuel + 1, w =>
    let n := w.length
    let x := rotl 1 (((w.getD (n - 3) 0) ^^^ (w.getD (n - 8) 0)) ^^^
                     ((w.getD (n - 14) 0) ^^^ (w.getD (n - 16) 0)))
    scheduleExtend fuel (w ++ [x])

/-- The five running words of one SHA-1 compression. -/
structure SHA1State where
  a : Nat
  b : Nat
  c : Nat
  d : Nat
  e : Nat
deriving DecidableEq

/-- Round function of SHA-1 for round i. -/
def sha1F (i : Nat) (b c d : Nat) : Nat :=
  if i < 20 then (b &&& c) ||| ((b ^^^ 4294967295) &&& d)
  else if i < 40 then (b ^^^ c) ^^^ d
  else if i < 60 then ((b &&& c) ||| (b &&& d)) ||| (c &&& d)
  else (b ^^^ c) ^^^ d

/-- Round constant of SHA-1 for round i. -/
def sha1K (i : Nat) : Nat :=
  if i < 20 then 1518500249
  else if i < 40 then 1859775393
  else if i < 60 then 2400959708
  else 3395469782

/-- One SHA-1 round on the running state. -/
def sha1Round (st : SHA1State) (i wi : Nat) : SHA1State :=
  let temp := (rotl 5 st.a + sha1F i st.b st.c st.d + st.e + sha1K i + wi) % 4294967296
  ⟨temp, st.a, rotl 30 st.b, st.c, st.d⟩

/-- Run the 80 rounds over the word schedule. -/
def processRounds : List Nat → Nat → SHA1State → SHA1State
  | [], _, st => st
  | wi :: rest, i, st => processRounds rest (i + 1) (sha1Round st i wi)

/-- The five hash words carried across chunks. -/
structure SHA1H where
  h0 : Nat
  h1 : Nat
  h2 : Nat
  h3 : Nat
  h4 : Nat
deriving DecidableEq

/-- Compress one 64-byte chunk into the running hash. -/
def processChunk (h : SHA1H) (chunk : List Nat) : SHA1H :=
  let w := scheduleExtend 64 (bytesToWords chunk)
  let st := processRounds w 0 ⟨h.h0, h.h1, h.h2, h.h3, h.h4⟩
  ⟨(h.h0 + st.a) % 4294967296, (h.h1 + st.b) % 4294967296, (h.h2 + st.c) % 4294967296,
   (h.h3 + st.d) % 4294967296, (h.h4 + st.e) % 4294967296⟩

/-- Split a byte list into 64-byte chunks (fuel bounds the recursion). -/
def chunksOf64 : Nat → List Nat → List (List Nat)
  | 0, _ => []
  | _, [] => []
  | fuel + 1, l => l.take 64 :: chunksOf64 fuel (l.drop 64)

/-- SHA-1 digest of a byte list, as the five hash words. -/
def sha1Digest (msg : List Nat) : SHA1H :=
  let padded := sha1Pad msg
  (chunksOf64 padded.length padded).foldl processChunk
    ⟨1732584193, 4023233417, 2562383102, 271733878, 3285377520⟩

/-- Lower-case hexadecimal digit for a value below 16. -/
def hexDigit (n : Nat) : Char :=
  if n < 10 then Char.ofNat (48 + n) else Char.ofNat (87 + n)

/-- The eight hex characters of one 32-bit word. -/
def wordHex (w : Nat) : List Char :=
  [hexDigit ((w >>> 28) % 16), hexDigit ((w >>> 24) % 16), hexDigit ((w >>> 20) % 16),
   hexDigit ((w >>> 16) % 16), hexDigit ((w >>> 12) % 16), hexDigit ((w >>> 8) % 16),
   hexDigit ((w >>> 4) % 16), hexDigit (w % 16)]

/-- The 40 hex characters of hashlib.sha1(msg).hexdigest(). -/
def sha1HexChars (msg : List Nat) : List Char :=
  wordHex (sha1Digest msg).h0 ++ wordHex (sha1Digest msg).h1 ++ wordHex (sha1Digest msg).h2 ++
  wordHex (sha1Digest msg).h3 ++ wordHex (sha1Digest msg).h4

/-- hashlib.sha1(msg).hexdigest() as a string. -/
def sha1HexString (msg : List Nat) : String := ⟨sha1HexChars msg⟩

/-! ## Message normalizer (adapters/minecraft/matchers/message.py) -/

/-- The fields of an inbound Minecraft chat event read by the matcher. -/
structure MCEvent where
  server_name : String
  player_uuid : String
  player_nickname : Option String
  content : String
  message_id : Option String
  timestamp : Nat
deriving DecidableEq

/-- short_player_id: the first 10 hex characters of the SHA-1 of the UTF-8
encoded native player identifier. -/
def short_player_id (player_uuid : String) : String :=
  ⟨(sha1HexChars (utf8Encode player_uuid)).take 10⟩

/-- The synthesized message id built when the protocol id is absent or blank. -/
def synthMsgId (e : MCEvent) : String :=
  "mc_" ++ e.server_name ++ "_" ++ short_player_id e.player_uuid ++ "_" ++ Nat.repr e.timestamp

/-- msg_id selection of the matcher: the protocol id when present, non-empty
and non-blank after stripping; otherwise the synthesized id. -/
def msgIdOf (e : MCEvent) : String :=
  match e.message_id with
  | some mid => if !(mid == "") && !(pyStrip mid == "") then mid else synthMsgId e
  | none => synthMsgId e

/-! ## RCON command batch executor (plugins/builtin/minecraft_utils.py) -/

/-- The fixed tuple RCON_ERROR_PREFIXES of known failure response openings. -/
def RCON_ERROR_PREFIXES : List String :=
  ["Unknown or incomplete command",
   "Incorrect argument",
   "Invalid player",
   "Player not found",
   "That player is not online",
   "You do not have permission to use this command",
   "Cannot give",
   "Invalid UUID",
   "No such entity",
   "That block is not a container",
   "Could not insert items",
   "Data tag parsing failed",
   "Expected",
   "Invalid command syntax",
   "An unexpected error occurred",
   "No targets matched selector",
   "The entity UUID is invalid",
   "Invalid command format"]

/-- is_error of the executor loop: the stripped response is truthy and starts
with one of the known failure openings. The argument is the already stripped
response text (response_msg in the source). -/
def isErrorResponse (response_msg : String) : Bool :=
  !(response_msg == "") && RCON_ERROR_PREFIXES.any (fun p => pyStartsWith response_msg p)

/-- One round trip of bot.send_rcon_command: a response string, or a raised
transport-level exception carrying its description. -/
inductive RconResult where
  | resp (s : String)
  | exc (msg : String)
deriving DecidableEq

/-- The spec's outcome statuses for one command. -/
inductive RStatus where
  | success
  | semanticError
  | transportError
deriving DecidableEq

/-- Status of one round trip result: an exception is a TransportError, a
response whose stripped text matches a failure opening is a SemanticError,
anything else is a Success. -/
def classify : RconResult → RStatus
  | RconResult.resp s =>
    if isErrorResponse (pyStrip s) then RStatus.semanticError else RStatus.success
  | RconResult.exc _ => RStatus.transportError

/-- The error classifier on a raw response string, as the executor applies it:
strip, then test the failure openings. -/
def classifyResponse (response : String) : RStatus :=
  if isErrorResponse (pyStrip response) then RStatus.semanticError else RStatus.success

/-- The error detail the fail-fast report shows for a failed round trip: the
stripped response for a semantic error, the exception text for an exception. -/
def respDetail : RconResult → String
  | RconResult.resp s => pyStrip s
  | RconResult.exc e => e

/-- The line appended to results_log for one command under either policy. -/
def logLine (command : String) (r : RconResult) : String :=
  match r with
  | RconResult.resp response =>
    if isErrorResponse (pyStrip response) then
      "Command '" ++ command ++ "': Error - " ++ pyStrip response
    else
      "Command '" ++ command ++ "': " ++
        (if pyStrip response == "" then "指令已成功执行，无返回内容" else pyStrip response)
  | RconResult.exc e => "Command '" ++ command ++ "': Error - " ++ e

/-- The results_log lines for a command list whose round trips start at
absolute position i. -/
def logLines (responder : Nat → RconResult) : Nat → List String → List String
  | _, [] => []
  | i, c :: rest => logLine c (responder i) :: logLines responder (i + 1) rest

/-- The fail-fast error report: the failing command with its detail, then the
previously accumulated success lines when there are any. -/
def failReport (command detail : String) (results_log : List String) : String :=
  if results_log.isEmpty then "执行命令 '" ++ command ++ "' 时出错: " ++ detail
  else
    "执行命令 '" ++ command ++ "' 时出错: " ++ detail ++ "\n先前成功的结果:\n" ++
      joinNL results_log

/-- Result of one batch execution: the returned string, the results_log at
return time, and how many round trips were attempted. -/
structure ExecOutcome where
  result : String
  finalLog : List String
  attempted : Nat
deriving DecidableEq

/-- The command loop of execute_rcon_commands. The responder gives the round
trip result of the command at absolute position i; results_log accumulates
one line per handled command; the attempted count records how many commands
were sent. -/
def execLoop (responder : Nat → RconResult) (continue_on_error : Bool) :
    List String → Nat → List String → ExecOutcome
  | [], i, results_log => ⟨joinNL results_log, results_log, i⟩
  | command :: rest, i, results_log =>
    match responder i with
    | RconResult.resp response =>
      let response_msg := pyStrip response
      if isErrorResponse response_msg then
        if continue_on_error then
          execLoop responder continue_on_error rest (i + 1)
            (results_log ++ ["Command '" ++ command ++ "': Error - " ++ response_msg])
        else
          ⟨failReport command response_msg results_log, results_log, i + 1⟩
      else
        execLoop responder continue_on_error rest (i + 1)
          (results_log ++ ["Command '" ++ command ++ "': " ++
            (if response_msg == "" then "指令已成功执行，无返回内容" else response_msg)])
    | RconResult.exc e =>
      if continue_on_error then
        execLoop responder continue_on_error rest (i + 1)
          (results_log ++ ["Command '" ++ command ++ "': Error - " ++ e])
      else
        ⟨failReport command e results_log, results_log, i + 1⟩

/-- The ValueError raised by pre-flight validation of execute_rcon_commands. -/
inductive ExecError where
  | invalidChatKey
  | invalidCommandList
  | emptyCommandList
deriving DecidableEq

/-- execute_rcon_commands: validate the chat key and the command list, look up
the live connection (hasBot), and run the loop. A missing connection yields a
result string, not an error. -/
def execute_rcon_commands (hasBot : String → Bool) (responder : Nat → RconResult)
    (chat_key : String) (commands : List String) (continue_on_error : Bool) :
    Except ExecError ExecOutcome :=
  if !(pyStartsWith chat_key "minecraft-") then Except.error ExecError.invalidChatKey
  else if !(commands.all fun cmd => !(pyStrip cmd == "")) then
    Except.error ExecError.invalidCommandList
  else if commands.isEmpty then Except.error ExecError.emptyCommandList
  else if !(hasBot chat_key) then
    Except.ok ⟨"错误：未能找到或连接到 Minecraft 服务器: " ++ chat_key, [], 0⟩
  else Except.ok (execLoop responder continue_on_error commands 0 [])

/-! ## Styled text composer (send_rich_text in plugins/builtin/minecraft_utils.py) -/

/-- The 16-value Minecraft color palette. -/
inductive MCColor where
  | black | dark_blue | dark_green | dark_aqua | dark_red | dark_purple | gold | gray
  | dark_gray | blue | green | aqua | red | light_purple | yellow | white
deriving DecidableEq

/-- Color(name): the palette value of a lower-cased color name, none when the
name is not in the palette (the ValueError branch of the source). -/
def colorOfString : String → Option MCColor
  | "black" => some MCColor.black
  | "dark_blue" => some MCColor.dark_blue
  | "dark_green" => some MCColor.dark_green
  | "dark_aqua" => some MCColor.dark_aqua
  | "dark_red" => some MCColor.dark_red
  | "dark_purple" => some MCColor.dark_purple
  | "gold" => some MCColor.gold
  | "gray" => some MCColor.gray
  | "dark_gray" => some MCColor.dark_gray
  | "blue" => some MCColor.blue
  | "green" => some MCColor.green
  | "aqua" => some MCColor.aqua
  | "red" => some MCColor.red
  | "light_purple" => some MCColor.light_purple
  | "yellow" => some MCColor.yellow
  | "white" => some MCColor.white
  | _ => none

/-- One LLM rich text segment dictionary: each key either absent or carrying a
value of the documented type. -/
structure SegDict where
  text : Option String
  color : Option String
  bold : Option Bool
  italic : Option Bool
  underlined : Option Bool
  strikethrough : Option Bool
  obfuscated : Option Bool
deriving DecidableEq

/-- A validated Minecraft Component: text plus optional style attributes,
where an absent attribute means inherit, distinct from an explicit false. -/
structure Component where
  text : String
  color : Option MCColor
  bold : Option Bool
  italic : Option Bool
  underlined : Option Bool
  strikethrough : Option Bool
  obfuscated : Option Bool
deriving DecidableEq

/-- _llm_segment_dict_to_component: take the text (default empty), keep the
color only when its lower-cased name is in the palette, copy style flags only
when present. -/
def _llm_segment_dict_to_component (seg : SegDict) : Component :=
  ⟨seg.text.getD "", seg.color.bind (fun c => colorOfString (pyLower c)),
   seg.bold, seg.italic, seg.underlined, seg.strikethrough, seg.obfuscated⟩

/-- An element of the decoded JSON list: a dictionary, or some other value. -/
inductive SegItem where
  | obj (d : SegDict)
  | nonObj
deriving DecidableEq

/-- The ValueError raised by _parse_and_validate_components. -/
inductive ComposeError where
  | invalidInput
  | emptyResult
deriving DecidableEq

/-- The dictionaries among the decoded elements, in order. -/
def objsOf (items : List SegItem) : List SegDict :=
  items.filterMap fun it =>
    match it with
    | SegItem.obj d => some d
    | SegItem.nonObj => none

/-- _parse_and_validate_components given the outcome of json.loads: a decode
failure (or a non-list) is InvalidInput; each dictionary element becomes a
component and any other element is skipped; an empty component list is
EmptyResult. -/
def _parse_and_validate_components (parsed : Except Unit (List SegItem)) :
    Except ComposeError (List Component) :=
  match parsed with
  | Except.error _ => Except.error ComposeError.invalidInput
  | Except.ok segments_data =>
    let parsed_components := segments_data.filterMap fun it =>
      match it with
      | SegItem.obj d => some (_llm_segment_dict_to_component d)
      | SegItem.nonObj => none
    if parsed_components.isEmpty then Except.error ComposeError.emptyResult
    else Except.ok parsed_components

/-- The plain text projection pushed to the message history: the concatenation
of the truthy text fields of the components. -/
def plainTextOf (components : List Component) : String :=
  concatAll ((components.filter fun c => !(c.text == "")).map fun c => c.text)

/-- The failures send_rich_text can raise before or during composition. -/
inductive SendError where
  | invalidChatKey
  | emptyRichTextJson
  | connectionError
  | composeFailure (k : ComposeError)
deriving DecidableEq

/-- send_rich_text up to the point where the components are handed to the
transport: validate the chat key, then the non-blank JSON argument, then look
up the live connection, then parse and validate; on success return the
composed components. jsonLoads abstracts json.loads plus the list check. -/
def send_rich_text (hasBot : String → Bool)
    (jsonLoads : String → Except Unit (List SegItem))
    (chat_key : String) (rich_text_json : String) :
    Except SendError (List Component) :=
  if !(pyStartsWith chat_key "minecraft-") then Except.error SendError.invalidChatKey
  else if pyStrip rich_text_json == "" then Except.error SendError.emptyRichTextJson
  else if !(hasBot chat_key) then Except.error SendError.connectionError
  else
    match _parse_and_validate_components (jsonLoads rich_text_json) with
    | Except.error k => Except.error (SendError.composeFailure k)
    | Except.ok components => Except.ok components

/-! ## Concrete inputs used by witnesses -/

/-- Descriptor list used by the composer witness: a styled segment and a
segment with an unknown color name. -/
def witnessSegs : List SegDict :=
  [⟨some "Hello ", some "gold", some true, none, none, none, none⟩,
   ⟨some "World", some "ultraviolet", none, none, none, none, none⟩]

/-- Inbound event carrying a protocol message id. -/
def witnessEventWithId : MCEvent :=
  ⟨"srv", "069a79f4-44e9-4726-a5be-fca90e38aaf5", some "Steve", "hi", some "evt-42", 1700000000⟩

/-- Inbound event without a protocol message id. -/
def witnessEventNoId : MCEvent :=
  ⟨"srv", "069a79f4-44e9-4726-a5be-fca90e38aaf5", some "Steve", "hi", none, 1700000000⟩

/-! ## String helper lemmas -/

theorem str_data_append (a b : String) : (a ++ b).data = a.data ++ b.data := rfl

theorem str_eq_empty_of_data (s : String) (h : s.data = []) : s = "" := by
  cases s with
  | mk d => cases h; rfl

theorem str_append_ne_empty_left (a b : String) (h : a ≠ "") : a ++ b ≠ "" := by
  intro hc
  have hd : a.data ++ b.data = [] := by
    have := congrArg String.data hc
    rwa [str_data_append] at this
  exact h (str_eq_empty_of_data a (List.append_eq_nil.mp hd).1)

theorem str_append_assoc (a b c : String) : (a ++ b) ++ c = a ++ (b ++ c) := by
  cases a with
  | mk d1 =>
    cases b with
    | mk d2 =>
      cases c with
      | mk d3 => exact congrArg String.mk (List.append_assoc d1 d2 d3)

theorem isErrorResponse_empty : isErrorResponse "" = false := by decide

theorem isErrorResponse_eq_any (msg : String) :
    isErrorResponse msg = RCON_ERROR_PREFIXES.any (fun p => pyStartsWith msg p) := by
  by_cases h : msg = ""
  · subst h; decide
  · simp [isErrorResponse, h]

/-! ## SHA-1 validation against published test vectors -/

theorem sha1_vector_empty :
    sha1HexString (utf8Encode "") = "da39a3ee5e6b4b0d3255bfef95601890afd80709" := by decide

theorem sha1_vector_abc :
    sha1HexString (utf8Encode "abc") = "a9993e364706816aba3e25717850c26c9cd0d89d" := by decide

theorem sha1_vector_fox :
    sha1HexString (utf8Encode "The quick brown fox jumps over the lazy dog") =
      "2fd4e1c67a2d28fced849ee1bb76e7391b93eb12" := by decide

theorem wordHex_length (w : Nat) : (wordHex w).length = 8 := rfl

theorem sha1HexChars_length (msg : List Nat) : (sha1HexChars msg).length = 40 := by
  simp [sha1HexChars, List.length_append, wordHex_length]

/-! ## C8: user id derivation -/

/-- C8: the normalizer's user id is the first 10 hex characters of the SHA-1
digest of the UTF-8 encoded native identifier; it is deterministic, always 10
characters long, and two concrete distinct identifiers map to distinct ids. -/
theorem short_player_id_sha1_truncation (a b : String) :
    short_player_id a = String.mk ((sha1HexChars (utf8Encode a)).take 10) ∧
    (a = b → short_player_id a = short_player_id b) ∧
    (short_player_id a).length = 10 ∧
    short_player_id "069a79f4-44e9-4726-a5be-fca90e38aaf5" ≠
      short_player_id "ec561538-f3fd-461d-aff5-086b22154bce" := by
  refine ⟨rfl, fun h => by rw [h], ?_, by decide⟩
  show ((sha1HexChars (utf8Encode a)).take 10).length = 10
  simp [List.length_take, sha1HexChars_length]

/-- Witness for C8: determinism applied at a concrete identifier. -/
theorem short_player_id_sha1_truncation_witness :
    short_player_id "069a79f4-44e9-4726-a5be-fca90e38aaf5" =
      short_player_id "069a79f4-44e9-4726-a5be-fca90e38aaf5" :=
  (short_player_id_sha1_truncation "069a79f4-44e9-4726-a5be-fca90e38aaf5"
    "069a79f4-44e9-4726-a5be-fca90e38aaf5").2.1 rfl

/-! ## C7: message id selection -/

theorem str_append_length (a b : String) : (a ++ b).length = a.length + b.length := by
  show ((a ++ b).data).length = a.data.length + b.data.length
  rw [str_data_append, List.length_append]

theorem synthMsgId_ne_empty (e : MCEvent) : synthMsgId e ≠ "" := by
  have h3 : ("mc_" : String) ≠ "" := by decide
  exact str_append_ne_empty_left _ _ (str_append_ne_empty_left _ _
    (str_append_ne_empty_left _ _ (str_append_ne_empty_left _ _
      (str_append_ne_empty_left _ _ h3))))

/-- C7: the normalizer's message id is the protocol id when one is present and
non-blank after stripping; otherwise (absent or blank) it is the synthesized
id mc underscore server underscore userId underscore timestamp; in both cases
the message id is non-empty. -/
theorem message_id_selection (e : MCEvent) :
    (∀ mid, e.message_id = some mid → pyStrip mid ≠ "" → msgIdOf e = mid) ∧
    (e.message_id = none → msgIdOf e = synthMsgId e) ∧
    (∀ mid, e.message_id = some mid → pyStrip mid = "" → msgIdOf e = synthMsgId e) ∧
    msgIdOf e ≠ "" := by
  refine ⟨?_, ?_, ?_, ?_⟩
  · intro mid hm hs
    have hne : mid ≠ "" := fun h => hs (by rw [h]; rfl)
    simp [msgIdOf, hm, hne, hs]
  · intro hm; simp [msgIdOf, hm]
  · intro mid hm hs
    simp [msgIdOf, hm, hs]
  · cases hm : e.message_id with
    | none =>
      have : msgIdOf e = synthMsgId e := by simp [msgIdOf, hm]
      rw [this]; exact synthMsgId_ne_empty e
    | some mid =>
      by_cases hc : (!(mid == "") && !(pyStrip mid == "")) = true
      · have : msgIdOf e = mid := by simp only [msgIdOf, hm, hc, if_true]
        rw [this]
        intro h; subst h; simp at hc
      · have : msgIdOf e = synthMsgId e := by simp only [msgIdOf, hm, if_neg hc]
        rw [this]; exact synthMsgId_ne_empty e

/-- Witness for C7: a concrete event with a protocol id keeps it; a concrete
event without one gets the non-empty synthesized id. -/
theorem message_id_selection_witness :
    msgIdOf witnessEventWithId = "evt-42" ∧
    msgIdOf witnessEventNoId = synthMsgId witnessEventNoId ∧
    msgIdOf witnessEventNoId ≠ "" :=
  ⟨(message_id_selection witnessEventWithId).1 "evt-42" rfl (by decide),
   (message_id_selection witnessEventNoId).2.1 rfl,
   (message_id_selection witnessEventNoId).2.2.2⟩

/-! ## C3: the error classifier -/

/-- Counterexample for C3: a response with a leading space is classified as a
SemanticError although the raw response text does not start with any of the
known failure openings, because the executor classifies the stripped text. -/
theorem classifier_counterexample :
    classifyResponse " Player not found" = RStatus.semanticError ∧
    RCON_ERROR_PREFIXES.any (fun p => pyStartsWith " Player not found" p) = false := by
  decide

/-- C3 amended: the classifier is a pure function of the response text that
yields SemanticError exactly when the whitespace-stripped response starts
with one of the fixed failure openings, and Success otherwise. -/
theorem classifier_trimmed_iff (response : String) :
    (classifyResponse response = RStatus.semanticError ↔
      RCON_ERROR_PREFIXES.any (fun p => pyStartsWith (pyStrip response) p) = true) ∧
    (classifyResponse response = RStatus.success ↔
      RCON_ERROR_PREFIXES.any (fun p => pyStartsWith (pyStrip response) p) = false) := by
  have h := isErrorResponse_eq_any (pyStrip response)
  cases ha : RCON_ERROR_PREFIXES.any (fun p => pyStartsWith (pyStrip response) p) with
  | true => rw [ha] at h; simp [classifyResponse, h]
  | false => rw [ha] at h; simp [classifyResponse, h]

/-! ## C5 and C6: the styled text composer -/

theorem filterMap_conv (items : List SegItem) :
    (items.filterMap fun it =>
      match it with
      | SegItem.obj d => some (_llm_segment_dict_to_component d)
      | SegItem.nonObj => none) =
    (objsOf items).map _llm_segment_dict_to_component := by
  induction items with
  | nil => rfl
  | cons it rest ih =>
    cases it with
    | obj d => simp [objsOf, List.filterMap_cons] at ih ⊢; exact ih
    | nonObj => simp [objsOf, List.filterMap_cons] at ih ⊢; exact ih

theorem objsOf_nil_iff (items : List SegItem) :
    objsOf items = [] ↔ ∀ d : SegDict, SegItem.obj d ∉ items := by
  induction items with
  | nil => simp [objsOf]
  | cons it rest ih =>
    cases it with
    | obj d =>
      constructor
      · intro h; simp [objsOf, List.filterMap_cons] at h
      · intro h; exact ((h d) (List.mem_cons_self _ _)).elim
    | nonObj =>
      simp [objsOf, List.filterMap_cons] at ih ⊢
      exact ih

/-- C5: the composer fails with EmptyResult exactly when no element of the
decoded list is an object (in particular on an empty list); otherwise the
non-object elements are skipped non-fatally and the call succeeds with the
components converted, in order, from the object elements alone. -/
theorem compose_empty_result_characterization (items : List SegItem) :
    (_parse_and_validate_components (Except.ok items) = Except.error ComposeError.emptyResult ↔
      ∀ d : SegDict, SegItem.obj d ∉ items) ∧
    (_parse_and_validate_components (Except.ok items) = Except.error ComposeError.emptyResult ∨
      _parse_and_validate_components (Except.ok items) =
        Except.ok ((objsOf items).map _llm_segment_dict_to_component)) := by
  have hfc := filterMap_conv items
  by_cases h : objsOf items = []
  · have hres : _parse_and_validate_components (Except.ok items) =
        Except.error ComposeError.emptyResult := by
      simp [_parse_and_validate_components, hfc, h]
    exact ⟨⟨fun _ => (objsOf_nil_iff items).1 h, fun _ => hres⟩, Or.inl hres⟩
  · have hne : ((objsOf items).map _llm_segment_dict_to_component).isEmpty = false := by
      cases hobj : objsOf items with
      | nil => exact absurd hobj h
      | cons _ _ => rfl
    have hres : _parse_and_validate_components (Except.ok items) =
        Except.ok ((objsOf items).map _llm_segment_dict_to_component) := by
      simp [_parse_and_validate_components, hfc, hne]
    refine ⟨⟨fun he => ?_, fun hall => ?_⟩, Or.inr hres⟩
    · rw [hres] at he; simp at he
    · exact absurd ((objsOf_nil_iff items).2 hall) h

theorem objsOf_map_obj (ds : List SegDict) : objsOf (ds.map SegItem.obj) = ds := by
  induction ds with
  | nil => rfl
  | cons d rest ih => simp [objsOf, List.filterMap_cons] at ih ⊢; exact ih

theorem concatAll_filter_truthy (l : List String) :
    concatAll (l.filter fun s => !(s == "")) = concatAll l := by
  induction l with
  | nil => rfl
  | cons a t ih =>
    by_cases h : a = ""
    · have hb : (a == "") = true := by simp [h]
      rw [List.filter_cons]
      simp only [hb, Bool.not_true]
      rw [if_neg (by simp), ih, show concatAll (a :: t) = a ++ concatAll t from rfl, h]
      rfl
    · have hb : (a == "") = false := by simp [h]
      rw [List.filter_cons]
      simp only [hb, Bool.not_false]
      rw [if_pos trivial,
        show concatAll (a :: t.filter fun s => !(s == "")) =
          a ++ concatAll (t.filter fun s => !(s == "")) from rfl,
        ih]
      rfl

theorem plainTextOf_concat (comps : List Component) :
    plainTextOf comps = concatAll (comps.map fun c => c.text) := by
  rw [← concatAll_filter_truthy (comps.map fun c => c.text)]
  show concatAll ((comps.filter fun c => !(c.text == "")).map fun c => c.text) =
    concatAll ((comps.map fun c => c.text).filter fun s => !(s == ""))
  rw [List.filter_map]
  rfl

/-- C6: on a descriptor list containing only valid objects the composition
succeeds, preserves the input order, and its plain text projection is the
concatenation of the descriptors' text fields in order. -/
theorem compose_plaintext_projection (ds : List SegDict) (h : ds ≠ []) :
    _parse_and_validate_components (Except.ok (ds.map SegItem.obj)) =
      Except.ok (ds.map _llm_segment_dict_to_component) ∧
    plainTextOf (ds.map _llm_segment_dict_to_component) =
      concatAll (ds.map fun d => d.text.getD "") := by
  constructor
  · have hfc := filterMap_conv (ds.map SegItem.obj)
    rw [objsOf_map_obj] at hfc
    have hne : (ds.map _llm_segment_dict_to_component).isEmpty = false := by
      cases ds with
      | nil => exact absurd rfl h
      | cons _ _ => rfl
    simp [_parse_and_validate_components, hfc, hne]
  · rw [plainTextOf_concat, List.map_map]
    rfl

/-- Witness for C6: a concrete two-descriptor list (one with an unknown color
name) composes in order and projects to the concatenated text. -/
theorem compose_plaintext_projection_witness :
    _parse_and_validate_components (Except.ok (witnessSegs.map SegItem.obj)) =
      Except.ok (witnessSegs.map _llm_segment_dict_to_component) ∧
    plainTextOf (witnessSegs.map _llm_segment_dict_to_component) = "Hello World" := by
  have h := compose_plaintext_projection witnessSegs (by decide)
  exact ⟨h.1, h.2.trans (by decide)⟩

/-! ## Executor lemmas -/

theorem classify_eq_success_iff (r : RconResult) :
    classify r = RStatus.success ↔
      ∃ s, r = RconResult.resp s ∧ isErrorResponse (pyStrip s) = false := by
  cases r with
  | resp s =>
    cases he : isErrorResponse (pyStrip s) with
    | false => simp [classify, he]
    | true => simp [classify, he]
  | exc e => simp [classify]

theorem execLoop_cons_success (responder : Nat → RconResult) (coe : Bool)
    (command : String) (rest : List String) (i : Nat) (log : List String)
    (s : String) (hr : responder i = RconResult.resp s)
    (he : isErrorResponse (pyStrip s) = false) :
    execLoop responder coe (command :: rest) i log =
      execLoop responder coe rest (i + 1) (log ++ [logLine command (responder i)]) := by
  simp [execLoop, logLine, hr, he]

theorem execLoop_cons_error_stop (responder : Nat → RconResult)
    (command : String) (rest : List String) (i : Nat) (log : List String)
    (hfail : classify (responder i) ≠ RStatus.success) :
    execLoop responder false (command :: rest) i log =
      ⟨failReport command (respDetail (responder i)) log, log, i + 1⟩ := by
  cases hr : responder i with
  | resp s =>
    cases he : isErrorResponse (pyStrip s) with
    | false => exact absurd (by rw [hr]; simp [classify, he]) hfail
    | true => simp [execLoop, respDetail, hr, he]
  | exc e => simp [execLoop, respDetail, hr]

theorem execLoop_cons_error_continue (responder : Nat → RconResult)
    (command : String) (rest : List String) (i : Nat) (log : List String)
    (hfail : classify (responder i) ≠ RStatus.success) :
    execLoop responder true (command :: rest) i log =
      execLoop responder true rest (i + 1) (log ++ [logLine command (responder i)]) := by
  cases hr : responder i with
  | resp s =>
    cases he : isErrorResponse (pyStrip s) with
    | false => exact absurd (by rw [hr]; simp [classify, he]) hfail
    | true => simp [execLoop, logLine, hr, he]
  | exc e => simp [execLoop, logLine, hr]

theorem logLines_length (responder : Nat → RconResult) :
    ∀ (i : Nat) (l : List String), (logLines responder i l).length = l.length
  | _, [] => rfl
  | i, _ :: rest => by simp [logLines, logLines_length responder (i + 1) rest]

theorem execLoop_complete (responder : Nat → RconResult) (coe : Bool) :
    ∀ (cmds : List String) (i : Nat) (log : List String),
    (coe = true ∨ ∀ k, k < cmds.length → classify (responder (i + k)) = RStatus.success) →
    execLoop responder coe cmds i log =
      ⟨joinNL (log ++ logLines responder i cmds), log ++ logLines responder i cmds,
        i + cmds.length⟩ := by
  intro cmds
  induction cmds with
  | nil => intro i log _; simp [execLoop, logLines]
  | cons c rest ih =>
    intro i log hp
    have hstep : execLoop responder coe (c :: rest) i log =
        execLoop responder coe rest (i + 1) (log ++ [logLine c (responder i)]) := by
      by_cases hs : classify (responder i) = RStatus.success
      · obtain ⟨s, hr, he⟩ := (classify_eq_success_iff _).1 hs
        exact execLoop_cons_success responder coe c rest i log s hr he
      · have hcoe : coe = true := by
          rcases hp with h | h
          · exact h
          · exact absurd (by have := h 0 (Nat.succ_pos _); rwa [Nat.add_zero] at this) hs
        subst hcoe
        exact execLoop_cons_error_continue responder c rest i log hs
    have htail : coe = true ∨
        ∀ k, k < rest.length → classify (responder (i + 1 + k)) = RStatus.success := by
      rcases hp with h | h
      · exact Or.inl h
      · refine Or.inr fun k hk => ?_
        have := h (k + 1) (by simpa using Nat.succ_lt_succ hk)
        rwa [show i + (k + 1) = i + 1 + k by omega] at this
    rw [hstep, ih (i + 1) (log ++ [logLine c (responder i)]) htail]
    have h1 : (log ++ [logLine c (responder i)]) ++ logLines responder (i + 1) rest =
        log ++ logLines responder i (c :: rest) := by
      simp [logLines, List.append_assoc]
    rw [h1]
    congr 1
    simp [List.length_cons]
    omega

theorem execLoop_failfast (responder : Nat → RconResult) :
    ∀ (cmds : List String) (j i : Nat) (log : List String) (hj : j < cmds.length),
    (∀ k, k < j → classify (responder (i + k)) = RStatus.success) →
    classify (responder (i + j)) ≠ RStatus.success →
    execLoop responder false cmds i log =
      ⟨failReport (cmds.get ⟨j, hj⟩) (respDetail (responder (i + j)))
          (log ++ logLines responder i (cmds.take j)),
        log ++ logLines responder i (cmds.take j), i + j + 1⟩ := by
  intro cmds
  induction cmds with
  | nil => intro j i log hj; exact absurd hj (by simp)
  | cons c rest ih =>
    intro j i log hj hpre hfail
    cases j with
    | zero =>
      rw [Nat.add_zero] at hfail
      rw [execLoop_cons_error_stop responder c rest i log hfail]
      simp [logLines]
    | succ j' =>
      have hs : classify (responder i) = RStatus.success := by
        have := hpre 0 (Nat.succ_pos _); rwa [Nat.add_zero] at this
      obtain ⟨s, hr, he⟩ := (classify_eq_success_iff _).1 hs
      have hj' : j' < rest.length := Nat.lt_of_succ_lt_succ hj
      have hpre' : ∀ k, k < j' → classify (responder (i + 1 + k)) = RStatus.success := by
        intro k hk
        have := hpre (k + 1) (Nat.succ_lt_succ hk)
        rwa [show i + (k + 1) = i + 1 + k by omega] at this
      have hfail' : classify (responder (i + 1 + j')) ≠ RStatus.success := by
        rwa [show i + (j' + 1) = i + 1 + j' by omega] at hfail
      rw [execLoop_cons_success responder false c rest i log s hr he,
        ih j' (i + 1) (log ++ [logLine c (responder i)]) hj' hpre' hfail']
      have hget : rest.get ⟨j', hj'⟩ = (c :: rest).get ⟨j' + 1, hj⟩ := rfl
      have hlog : (log ++ [logLine c (responder i)]) ++ logLines responder (i + 1) (rest.take j') =
          log ++ logLines responder i ((c :: rest).take (j' + 1)) := by
        simp [logLines, List.append_assoc]
      rw [hget, hlog, show i + 1 + j' = i + (j' + 1) by omega]

/-! ## C1: fail-fast batches stop at the first failure -/

/-- C1: with continueOnError false, when every command before position j
succeeds and the command at position j classifies as SemanticError or
TransportError, the batch stops there: exactly j plus one commands were sent,
and the returned string is the fail-fast report of the failing command and
its error detail followed by the success lines accumulated before it. -/
theorem rcon_failfast_stops (hasBot : String → Bool) (responder : Nat → RconResult)
    (chat_key : String) (commands : List String) (j : Nat)
    (hkey : pyStartsWith chat_key "minecraft-" = true)
    (hall : (commands.all fun cmd => !(pyStrip cmd == "")) = true)
    (hbot : hasBot chat_key = true)
    (hj : j < commands.length)
    (hpre : ∀ k, k < j → classify (responder k) = RStatus.success)
    (hfail : classify (responder j) ≠ RStatus.success) :
    execute_rcon_commands hasBot responder chat_key commands false =
      Except.ok ⟨failReport (commands.get ⟨j, hj⟩) (respDetail (responder j))
          (logLines responder 0 (commands.take j)),
        logLines responder 0 (commands.take j), j + 1⟩ := by
  have hemp : commands.isEmpty = false := by
    cases commands with
    | nil => exact absurd hj (by simp)
    | cons _ _ => rfl
  have hloop := execLoop_failfast responder commands j 0 [] hj
    (by intro k hk; simpa using hpre k hk) (by simpa using hfail)
  have hloop' : execLoop responder false commands 0 [] =
      ⟨failReport (commands.get ⟨j, hj⟩) (respDetail (responder j))
          (logLines responder 0 (commands.take j)),
        logLines responder 0 (commands.take j), j + 1⟩ := by
    simpa using hloop
  simp [execute_rcon_commands, hkey, hall, hemp, hbot, hloop']

/-- Witness for C1 at a concrete three-command batch failing at position 1:
the third command is never sent. -/
theorem rcon_failfast_stops_witness :
    execute_rcon_commands (fun _ => true)
      (fun i => if i = 0 then RconResult.resp "Hello" else
        RconResult.resp "Unknown or incomplete command, see below")
      "minecraft-srv" ["say Hello", "bad_cmd", "say World"] false =
    Except.ok ⟨"执行命令 'bad_cmd' 时出错: Unknown or incomplete command, see below\n先前成功的结果:\nCommand 'say Hello': Hello",
      ["Command 'say Hello': Hello"], 2⟩ := by
  have h := rcon_failfast_stops (fun _ => true)
    (fun i => if i = 0 then RconResult.resp "Hello" else
      RconResult.resp "Unknown or incomplete command, see below")
    "minecraft-srv" ["say Hello", "bad_cmd", "say World"] 1
    (by decide) (by decide) rfl (by decide) (by decide) (by decide)
  exact h.trans (congrArg Except.ok (by decide))

/-! ## C2: completed batches report one line per command -/

/-- C2: when the batch runs to completion (continueOnError true, or every
command classifies as Success), the returned string is the accumulated log
lines joined by newlines in original command order, the log holds exactly one
line per command, and all commands were attempted. -/
theorem rcon_complete_joined (hasBot : String → Bool) (responder : Nat → RconResult)
    (chat_key : String) (commands : List String) (continue_on_error : Bool)
    (hkey : pyStartsWith chat_key "minecraft-" = true)
    (hall : (commands.all fun cmd => !(pyStrip cmd == "")) = true)
    (hne : commands ≠ [])
    (hbot : hasBot chat_key = true)
    (hpol : continue_on_error = true ∨
      ∀ k, k < commands.length → classify (responder k) = RStatus.success) :
    execute_rcon_commands hasBot responder chat_key commands continue_on_error =
      Except.ok ⟨joinNL (logLines responder 0 commands), logLines responder 0 commands,
        commands.length⟩ ∧
    (logLines responder 0 commands).length = commands.length := by
  have hemp : commands.isEmpty = false := by
    cases commands with
    | nil => exact absurd rfl hne
    | cons _ _ => rfl
  have hloop := execLoop_complete responder continue_on_error commands 0 []
    (by
      rcases hpol with h | h
      · exact Or.inl h
      · exact Or.inr (by intro k hk; simpa using h k hk))
  constructor
  · have hloop' : execLoop responder continue_on_error commands 0 [] =
        ⟨joinNL (logLines responder 0 commands), logLines responder 0 commands,
          commands.length⟩ := by
      simpa using hloop
    simp [execute_rcon_commands, hkey, hall, hemp, hbot, hloop']
  · exact logLines_length responder 0 commands

/-- Witness for C2: a concrete continue-on-error batch whose middle command
fails still reports three lines, one per command, joined by newlines. -/
theorem rcon_complete_joined_witness :
    execute_rcon_commands (fun _ => true)
      (fun i => if i = 1 then RconResult.resp "Player not found: bob" else RconResult.resp "Done")
      "minecraft-srv" ["say Hello", "heal bob", "say World"] true =
    Except.ok ⟨"Command 'say Hello': Done\nCommand 'heal bob': Error - Player not found: bob\nCommand 'say World': Done",
      ["Command 'say Hello': Done", "Command 'heal bob': Error - Player not found: bob",
       "Command 'say World': Done"], 3⟩ ∧
    (logLines (fun i => if i = 1 then RconResult.resp "Player not found: bob"
        else RconResult.resp "Done") 0 ["say Hello", "heal bob", "say World"]).length = 3 := by
  have h := rcon_complete_joined (fun _ => true)
    (fun i => if i = 1 then RconResult.resp "Player not found: bob" else RconResult.resp "Done")
    "minecraft-srv" ["say Hello", "heal bob", "say World"] true
    (by decide) (by decide) (by decide) rfl (Or.inl rfl)
  exact ⟨h.1.trans (congrArg Except.ok (by decide)), h.2⟩

/-! ## C4: missing connection yields a result string without round trips -/

/-- C4: a validated batch whose channel key has no live connection returns a
connection-unavailable descriptor as its result string (not an error) with an
empty log and zero commands attempted. -/
theorem rcon_no_connection_string (hasBot : String → Bool) (responder : Nat → RconResult)
    (chat_key : String) (commands : List String) (continue_on_error : Bool)
    (hkey : pyStartsWith chat_key "minecraft-" = true)
    (hall : (commands.all fun cmd => !(pyStrip cmd == "")) = true)
    (hne : commands ≠ [])
    (hbot : hasBot chat_key = false) :
    execute_rcon_commands hasBot responder chat_key commands continue_on_error =
      Except.ok ⟨"错误：未能找到或连接到 Minecraft 服务器: " ++ chat_key, [], 0⟩ := by
  have hemp : commands.isEmpty = false := by
    cases commands with
    | nil => exact absurd rfl hne
    | cons _ _ => rfl
  simp [execute_rcon_commands, hkey, hall, hemp, hbot]

/-- Witness for C4 at a concrete offline channel. -/
theorem rcon_no_connection_string_witness :
    execute_rcon_commands (fun _ => false) (fun _ => RconResult.resp "Done")
      "minecraft-offline" ["say hi"] false =
      Except.ok ⟨"错误：未能找到或连接到 Minecraft 服务器: minecraft-offline", [], 0⟩ := by
  have h := rcon_no_connection_string (fun _ => false) (fun _ => RconResult.resp "Done")
    "minecraft-offline" ["say hi"] false (by decide) (by decide) (by decide) rfl
  exact h.trans (congrArg Except.ok (by decide))

/-! ## C9: blank successful responses get a placeholder line -/

/-- C9: a command whose response classifies as Success but strips to the
empty string contributes the fixed non-empty placeholder line (command
executed successfully, no returned content) instead of an empty result. -/
theorem blank_success_placeholder (responder : Nat → RconResult) (coe : Bool)
    (command : String) (rest : List String) (i : Nat) (log : List String) (s : String)
    (hr : responder i = RconResult.resp s) (hblank : pyStrip s = "") :
    execLoop responder coe (command :: rest) i log =
      execLoop responder coe rest (i + 1)
        (log ++ ["Command '" ++ command ++ "': 指令已成功执行，无返回内容"]) ∧
    ("Command '" ++ command ++ "': 指令已成功执行，无返回内容" : String) ≠ "" := by
  constructor
  · simp [execLoop, hr, hblank, isErrorResponse_empty]
    rw [str_append_assoc]
    rfl
  · exact str_append_ne_empty_left _ _ (str_append_ne_empty_left _ _ (by decide))

/-- Witness for C9 at a concrete whitespace-only response. -/
theorem blank_success_placeholder_witness :
    execLoop (fun _ => RconResult.resp "   ") false ["say hi"] 0 [] =
      execLoop (fun _ => RconResult.resp "   ") false [] 1
        ["Command 'say hi': 指令已成功执行，无返回内容"] ∧
    ("Command 'say hi': 指令已成功执行，无返回内容" : String) ≠ "" := by
  have h := blank_success_placeholder (fun _ => RconResult.resp "   ") false "say hi" [] 0 []
    "   " rfl (by decide)
  exact ⟨h.1, h.2⟩

/-! ## C10: connection lookup precedes JSON parsing in send_rich_text -/

/-- C10: for any call whose chat key matches the pattern and whose JSON
argument is a non-blank string, a missing live connection raises
ConnectionError regardless of the JSON parse outcome, so the connection
lookup happens before the rich text is parsed or validated. -/
theorem send_rich_text_connection_before_parse (hasBot : String → Bool)
    (jsonLoads : String → Except Unit (List SegItem)) (chat_key rich_text_json : String)
    (hkey : pyStartsWith chat_key "minecraft-" = true)
    (hjson : (pyStrip rich_text_json == "") = false)
    (hbot : hasBot chat_key = false) :
    send_rich_text hasBot jsonLoads chat_key rich_text_json =
      Except.error SendError.connectionError := by
  simp [send_rich_text, hkey, hjson, hbot]

/-- Witness for C10: a concrete offline channel with an unparseable JSON
argument still reports ConnectionError. -/
theorem send_rich_text_connection_before_parse_witness :
    send_rich_text (fun _ => false) (fun _ => Except.error ()) "minecraft-srv" "not a json" =
      Except.error SendError.connectionError :=
  send_rich_text_connection_before_parse (fun _ => false) (fun _ => Except.error ())
    "minecraft-srv" "not a json" (by decide) (by decide) rfl
